import Mathlib

/-!
# mattuliser: the audio pipeline of `visualiserWin.cpp`

A shallow embedding of the functions of `src/visualiserWin.cpp` that carry the
audio pipeline and the render loop: `decodeFrame`, `audioThreadEntryPoint`,
`ffmpegWorkerEntry`, `visualiserWin::handleEvent` and `visualiserWin::eventLoop`.

Conventions.
* C `int` values are `Int`; `unsigned int` / `Uint32` values are `Nat`, reduced
  modulo `2 ^ 32` wherever the source computes in that type and the value can wrap.
* Memory that the source addresses through a pointer (`buf`, the slots of the
  circular buffer) is a function from an index or address to a byte; bytes are `Nat`.
* `static` locals become fields of an explicit state that each function receives and
  returns.
* Code outside the file is a parameter (the codec, the decoder seen from the callback,
  the operations of the circular buffer) or a small model that says where it comes
  from (the packet queue, `SDL_PollEvent`). The calls a function makes are recorded,
  in order, in a list, so that statements about which call happened, and when, can be
  written down.
-/

namespace Mattuliser

/-! ## Bytes in memory -/

/-- The `n` bytes found at `start, start + 1, ...` of the memory `m`
(the source operand of a `memcpy`). -/
def readBytes (m : Nat → Nat) (start n : Nat) : List Nat :=
  (List.range n).map (fun i => m (start + i))

/-- The memory `m` after the bytes `bs` were stored at `start, start + 1, ...`
(the destination operand of a `memcpy`). -/
def writeBytes (m : Nat → Nat) (start : Nat) (bs : List Nat) : Nat → Nat :=
  fun a => if start ≤ a ∧ a < start + bs.length then bs.getD (a - start) 0 else m a

/-- The memory `m` after `memset(m, 0, n)`. -/
def zeroBytes (m : Nat → Nat) (n : Nat) : Nat → Nat :=
  fun a => if a < n then 0 else m a

/-! ## Packets, the packet queue and the codec -/

/-- The fields of ffmpeg's `AVPacket` that the file reads. `data` is the address of the
first payload byte. -/
structure AVPacket where
  stream_index : Int
  data : Int
  size : Int
deriving DecidableEq

/-- Modelled from the spec: the `packetQueue` class, whose header and implementation are
not in `src/`. The spec describes a FIFO sequence of packets with `put` enqueueing at the
back and `get` removing and returning the oldest packet, or a failure value when there is
none to deliver (queue shut down and drained). Blocking is not represented: `get` on an
empty queue is the failure value (the `NULL` that `decodeFrame` tests for). -/
structure packetQueue where
  packets : List AVPacket
deriving DecidableEq

/-- Modelled from the spec: `packetQueue::put`, enqueue a copy of the packet at the back. -/
def packetQueue.put (q : packetQueue) (p : AVPacket) : packetQueue :=
  { packets := q.packets ++ [p] }

/-- Modelled from the spec: `packetQueue::get`, remove and return the oldest packet;
`none` is the `NULL` result. -/
def packetQueue.get (q : packetQueue) : Option AVPacket × packetQueue :=
  match q.packets with
  | [] => (none, q)
  | p :: rest => (some p, { packets := rest })

/-- What one call of `avcodec_decode_audio2` leaves behind: its return value
(`framesRead`: the number of source bytes consumed, negative on a decode error), the
value it stores in `*dataSize` (the number of PCM bytes produced) and the bytes it stored
at the start of the output buffer. -/
structure DecodeOut where
  framesRead : Int
  dataSize : Int
  pcm : List Nat

/-- The codec `avcodec_decode_audio2(codecCtx, buffer, &dataSize, packetData, packetSize)`
of libavcodec, as a step on the codec context `κ`: the arguments are the context, the
source pointer `packetData`, the source length `packetSize` and the capacity passed in
`dataSize`. -/
abbrev Codec (κ : Type) := κ → Int → Int → Int → DecodeOut × κ

/-- The calls `decodeFrame` makes to its collaborators, in the order it makes them. -/
inductive Call where
  | get (result : Option AVPacket)
  | decode (packetData : Int) (packetSize : Int)
deriving DecidableEq

/-- Everything `decodeFrame` reads and writes: the queue and the codec context it is
handed, its three `static` locals (`packet`, `packetSize`, `packetData`; the last two are
the decode cursor), and the record of the calls made so far. -/
structure DecodeState (κ : Type) where
  queue : packetQueue
  codecCtx : κ
  packet : Option AVPacket
  packetSize : Int
  packetData : Int
  calls : List Call

/-- The initial values of the `static` locals of `decodeFrame`
(`packet = NULL`, `packetSize = 0`, `packetData = NULL`). -/
def DecodeState.init {κ : Type} (queue : packetQueue) (codecCtx : κ) : DecodeState κ :=
  { queue := queue, codecCtx := codecCtx, packet := none, packetSize := 0, packetData := 0,
    calls := [] }

/-- Lines 193-201 of `decodeFrame`, the block under `//Get a packet.`:
when `packetSize == 0`, `packet = queue->get()`; a `NULL` packet makes the function
return; otherwise the cursor is loaded from the packet. When `packetSize != 0` nothing
happens. The result is the state at line 203 paired with `true`, or the state at the
`return -1` paired with `false`. -/
def decodeFetch {κ : Type} (w : DecodeState κ) : DecodeState κ × Bool :=
  if w.packetSize = 0 then
    let got := w.queue.get
    let w1 := { w with queue := got.2, packet := got.1, calls := w.calls ++ [Call.get got.1] }
    match got.1 with
    | none => (w1, false)
    | some p => ({ w1 with packetSize := p.size, packetData := p.data }, true)
  else (w, true)

/-- Lines 203-217 of `decodeFrame`: the codec is invoked on the cursor; on a negative
result `packetSize = 0; return 0;`, otherwise `packetSize -= framesRead;
packetData -= framesRead; return dataSize;`. The result is the returned `int`, the bytes
the codec stored at the start of `buffer`, and the state. -/
def decodeStep {κ : Type} (codec : Codec κ) (bufferSize : Int) (w : DecodeState κ) :
    Int × List Nat × DecodeState κ :=
  let dataSize := bufferSize
  let out := codec w.codecCtx w.packetData w.packetSize dataSize
  let w1 := { w with codecCtx := out.2,
                     calls := w.calls ++ [Call.decode w.packetData w.packetSize] }
  if out.1.framesRead < 0 then
    (0, out.1.pcm, { w1 with packetSize := 0 })
  else
    (out.1.dataSize, out.1.pcm,
      { w1 with packetSize := w1.packetSize - out.1.framesRead,
                packetData := w1.packetData - out.1.framesRead })

/-- The function `decodeFrame(codecCtx, buffer, bufferSize, queue)`: the returned `int`,
the bytes stored at the start of `buffer` (none on the `return -1` path) and the state. -/
def decodeFrame {κ : Type} (codec : Codec κ) (bufferSize : Int) (w : DecodeState κ) :
    Int × List Nat × DecodeState κ :=
  let f := decodeFetch w
  if f.2 then decodeStep codec bufferSize f.1 else (-1, [], f.1)

/-- The number of `queue->get()` calls in a record of calls. -/
def getCount (calls : List Call) : Nat :=
  (calls.filter (fun c => match c with
    | Call.get _ => true
    | Call.decode _ _ => false)).length

/-! ## The audio callback -/

/-- The `static` locals of `audioThreadEntryPoint`: the scratch buffer `buf` (a byte for
every index), `bufLength` and `bufCurrentIndex`. Both counters are `unsigned int` in the
source; every value they receive there is an `int` that was tested non-negative, a
constant, or a sum bounded by `bufLength`, so no reduction modulo `2 ^ 32` takes place. -/
structure AudioStatics where
  buf : Nat → Nat
  bufLength : Nat
  bufCurrentIndex : Nat

/-- The initial values of the `static` locals of `audioThreadEntryPoint`
(a zero-initialised `buf`, `bufLength = 0`, `bufCurrentIndex = 0`). -/
def AudioStatics.init : AudioStatics :=
  { buf := fun _ => 0, bufLength := 0, bufCurrentIndex := 0 }

/-- The call `decodeFrame(codecCtx, buf, sizeof(buf), queue)` as the callback sees it: a
step on the decoder state `δ` giving the returned `int` and the bytes stored at the start
of `buf`. -/
abbrev Decoder (δ : Type) := δ → Int × List Nat × δ

/-- Lines 235-251 of `audioThreadEntryPoint`: the block
`if(bufCurrentIndex >= bufLength) { ... }`. `maxFrame` is the libavcodec constant
`AVCODEC_MAX_AUDIO_FRAME_SIZE`. On a negative `decodeSize` the source assigns
`bufCurrentIndex = AVCODEC_MAX_AUDIO_FRAME_SIZE` and zeroes that many bytes of `buf`;
otherwise it assigns `bufLength = decodeSize`; in both cases `bufCurrentIndex = 0`
follows. -/
def refill {δ : Type} (dec : Decoder δ) (maxFrame : Nat) (s : AudioStatics) (d : δ) :
    AudioStatics × δ :=
  if s.bufCurrentIndex ≥ s.bufLength then
    let r := dec d
    let decodeSize := r.1
    let s1 := { s with buf := writeBytes s.buf 0 r.2.1 }
    let s2 :=
      if decodeSize < 0 then
        { s1 with bufCurrentIndex := maxFrame, buf := zeroBytes s1.buf maxFrame }
      else
        { s1 with bufLength := decodeSize.toNat }
    ({ s2 with bufCurrentIndex := 0 }, r.2.2)
  else (s, d)

/-- Lines 232-259 of `audioThreadEntryPoint`: the loop `while(samplesLeft > 0)`, run for at
most `fuel` iterations; `none` means the loop is still running after `fuel` iterations.
`stream` holds the bytes stored so far through `streamIndex` (each `memcpy` appends
`numberOfSamples` bytes read from `buf + bufCurrentIndex`). At the subtraction
`bufLength - bufCurrentIndex` the index is at most `bufLength` (it is below it, or was just
reset to 0), so the `unsigned` difference is the difference of the numbers, and it is the
value of the `int numberOfSamples` because `bufLength` came from an `int`. `samplesLeft` is
a non-negative `int` throughout, since `numberOfSamples <= samplesLeft`. -/
def fillLoop {δ : Type} (dec : Decoder δ) (maxFrame : Nat) :
    Nat → AudioStatics → δ → Nat → List Nat → Option (AudioStatics × δ × List Nat)
  | 0, s, d, samplesLeft, stream =>
    if samplesLeft = 0 then some (s, d, stream) else none
  | fuel + 1, s, d, samplesLeft, stream =>
    if samplesLeft = 0 then some (s, d, stream)
    else
      let r := refill dec maxFrame s d
      let numberOfSamples := min (r.1.bufLength - r.1.bufCurrentIndex) samplesLeft
      fillLoop dec maxFrame fuel
        { r.1 with bufCurrentIndex := r.1.bufCurrentIndex + numberOfSamples } r.2
        (samplesLeft - numberOfSamples)
        (stream ++ readBytes r.1.buf r.1.bufCurrentIndex numberOfSamples)

/-- The constant `CIRCBUFSIZE` of the file. -/
def CIRCBUFSIZE : Nat := 5

/-- Modelled from the spec: the interface of the `circularBuffer` class, whose header and
implementation are not in `src/`: the constructor `circularBuffer(slots, slotBytes)`, and
`add()` and `pop()`, each returning the address of a slot and moving the ring on. Which
slot each returns is left to the instance. -/
structure CircularBufferOps (β : Type) where
  create : Nat → Nat → β
  add : β → Nat × β
  pop : β → Nat × β

/-- The object behind `dspman->cbuf`: the two arguments it was constructed with and the
state of its ring. -/
structure CircularBuffer (β : Type) where
  slots : Nat
  slotBytes : Nat
  ring : β

/-- The calls and copies of lines 261-266 of `audioThreadEntryPoint`, in the order they
are made. `copyIn slot bytes` is `memcpy(slot, stream, len)`, `copyOut slot bytes` is
`memcpy(stream, slot, len)`; `bytes` are the bytes copied. -/
inductive AudioCall where
  | processAudioPCM (pcm : List Nat) (len : Nat)
  | create (slots : Nat) (slotBytes : Nat)
  | add (slot : Nat)
  | copyIn (slot : Nat) (bytes : List Nat)
  | pop (slot : Nat)
  | copyOut (slot : Nat) (bytes : List Nat)
deriving DecidableEq

/-- Everything `audioThreadEntryPoint` reads and writes besides `stream`: its `static`
locals, the state of the decoder behind `decodeFrame`, `dspman->cbuf` (`none` is `NULL`)
and the memory that holds the slots of the circular buffer. -/
structure AudioState (δ β : Type) where
  statics : AudioStatics
  decoder : δ
  cbuf : Option (CircularBuffer β)
  heap : Nat → Nat

/-- The circular buffer that line 265 works on: the one behind `dspman->cbuf`, or, when
that pointer is `NULL`, the one line 264 constructs with `(CIRCBUFSIZE, len)`. -/
def ringBefore {β : Type} (ops : CircularBufferOps β) (cbuf : Option (CircularBuffer β))
    (len : Nat) : CircularBuffer β :=
  match cbuf with
  | none => { slots := CIRCBUFSIZE, slotBytes := len, ring := ops.create CIRCBUFSIZE len }
  | some cb => cb

/-- What one invocation of `audioThreadEntryPoint` leaves behind: the state, the `len`
bytes in `stream` at return, and the calls of lines 261-266 in order. -/
structure CallbackResult (δ β : Type) where
  state : AudioState δ β
  stream : List Nat
  calls : List AudioCall

/-- The function `audioThreadEntryPoint(udata, stream, len)`, with the fill loop run for at
most `fuel` iterations (`none`: the loop is still running after `fuel` iterations).
After the loop: `dspman->processAudioPCM(NULL, stream, len)` (modelled from the spec as
reading the PCM and leaving `stream` as it is); the circular buffer is constructed with
`(CIRCBUFSIZE, len)` when `dspman->cbuf == NULL`; `len` bytes of `stream` are copied to
the address `add()` returns; `len` bytes at the address `pop()` returns are copied to
`stream`. -/
def audioThreadEntryPoint {δ β : Type} (dec : Decoder δ) (ops : CircularBufferOps β)
    (maxFrame fuel : Nat) (a : AudioState δ β) (len : Nat) : Option (CallbackResult δ β) :=
  match fillLoop dec maxFrame fuel a.statics a.decoder len [] with
  | none => none
  | some (statics, decoder, stream) =>
    let made : CircularBuffer β × List AudioCall :=
      match a.cbuf with
      | none =>
        ({ slots := CIRCBUFSIZE, slotBytes := len, ring := ops.create CIRCBUFSIZE len },
          [AudioCall.create CIRCBUFSIZE len])
      | some cb => (cb, [])
    let added := ops.add made.1.ring
    let heap1 := writeBytes a.heap added.1 (readBytes (fun i => stream.getD i 0) 0 len)
    let popped := ops.pop added.2
    let out := readBytes heap1 popped.1 len
    some
      { state := { statics := statics, decoder := decoder,
                   cbuf := some { made.1 with ring := popped.2 }, heap := heap1 },
        stream := out,
        calls := [AudioCall.processAudioPCM stream len] ++ made.2 ++
          [AudioCall.add added.1,
           AudioCall.copyIn added.1 (readBytes (fun i => stream.getD i 0) 0 len),
           AudioCall.pop popped.1,
           AudioCall.copyOut popped.1 out] }

/-- Successive invocations of `audioThreadEntryPoint` with the request lengths `lens`,
each on the state the previous one left; the results are listed in order. -/
def playback {δ β : Type} (dec : Decoder δ) (ops : CircularBufferOps β)
    (maxFrame fuel : Nat) :
    AudioState δ β → List Nat → Option (AudioState δ β × List (CallbackResult δ β))
  | a, [] => some (a, [])
  | a, len :: lens =>
    match audioThreadEntryPoint dec ops maxFrame fuel a len with
    | none => none
    | some r =>
      match playback dec ops maxFrame fuel r.state lens with
      | none => none
      | some (a2, rs) => some (a2, r :: rs)

/-- The PCM handed to `processAudioPCM` in a record of calls, one entry per call. -/
def dspInputs : List AudioCall → List (List Nat)
  | [] => []
  | AudioCall.processAudioPCM pcm _ :: cs => pcm :: dspInputs cs
  | _ :: cs => dspInputs cs

/-- The byte counts of the copies into and out of slots in a record of calls. -/
def copySizes : List AudioCall → List Nat
  | [] => []
  | AudioCall.copyIn _ bytes :: cs => bytes.length :: copySizes cs
  | AudioCall.copyOut _ bytes :: cs => bytes.length :: copySizes cs
  | _ :: cs => copySizes cs

/-- The bytes of the scratch buffer that were decoded and not yet copied to a stream:
those from `bufCurrentIndex` up to `bufLength`. -/
def pending (s : AudioStatics) : List Nat :=
  readBytes s.buf s.bufCurrentIndex (s.bufLength - s.bufCurrentIndex)

/-- The state the loop of `ffmpegWorkerEntry` has reached when its test fails: the packet
queue, the packets released with `av_free_packet` (in order), and the results of
`av_read_frame` that were never asked for. -/
structure WorkerResult where
  queue : packetQueue
  freed : List AVPacket
  unread : List (Int × AVPacket)
deriving DecidableEq

/-- Lines 159-166 of `ffmpegWorkerEntry`: the loop
`while(av_read_frame(fmtCtx, &packet) >= 0)`. The container reader is the list of results
of the successive calls `av_read_frame(fmtCtx, &packet)`: the returned `int` and the
contents of `packet` after the call. The loop runs while the returned value is `>= 0`; a
reader with no further result fails the test as a failed read does. The result is the
state at the point where the test fails. -/
def readLoop (audioStream : Int) :
    List (Int × AVPacket) → packetQueue → List AVPacket → WorkerResult
  | [], queue, freed => { queue := queue, freed := freed, unread := [] }
  | (code, packet) :: rest, queue, freed =>
    if code ≥ 0 then
      if packet.stream_index = audioStream then
        readLoop audioStream rest (queue.put packet) freed
      else
        readLoop audioStream rest queue (freed ++ [packet])
    else { queue := queue, freed := freed, unread := rest }

/-- How a call of `ffmpegWorkerEntry` ends. `returned r`: a `return` statement was executed
in state `r`. `offEnd r`: the loop test failed in state `r` and control reached the closing
brace of the function, which is declared `static void*`, without meeting a `return`
statement. C++ gives an execution that does so no meaning (undefined behaviour): from
`offEnd r` nothing follows about what the worker does next, nor that it stops. -/
inductive WorkerEnd where
  | returned (r : WorkerResult)
  | offEnd (r : WorkerResult)
deriving DecidableEq

/-- The function `ffmpegWorkerEntry` (lines 152-167): the loop of lines 159-166, after which
the body ends. There is no `return` statement in the function, so every way out of the
loop is `offEnd`. -/
def ffmpegWorkerEntry (audioStream : Int) (reads : List (Int × AVPacket))
    (queue : packetQueue) (freed : List AVPacket) : WorkerEnd :=
  WorkerEnd.offEnd (readLoop audioStream reads queue freed)

/-! ## The event loop -/

/-- The part of `SDL_Event` the file reads: the tag `type`, and the rest of the union. -/
structure SDL_Event where
  type : Nat
  payload : Nat
deriving DecidableEq

/-- An `eventHandler` object: its identity and the value its `eventType()` returns. -/
structure eventHandler where
  id : Nat
  eventType : Nat
deriving DecidableEq

/-- The function `visualiserWin::handleEvent(e)`: the handlers on which
`eH->handleEvent(e)` is called, in the iteration order of the set `eventHandlers`. -/
def handleEvent (eventHandlers : List eventHandler) (e : SDL_Event) : List eventHandler :=
  eventHandlers.filter (fun eH => eH.eventType = e.type)

/-- The SDL call `SDL_PollEvent(&e)` as the SDL documentation describes it: with a pending
event it removes the oldest one from the event queue, stores it in `e` and returns 1;
with none pending it returns 0 and leaves `e` as it is. The result is the returned
`int`, the contents of `e` and the event queue. -/
def SDL_PollEvent (pending : List SDL_Event) (e : SDL_Event) :
    Int × SDL_Event × List SDL_Event :=
  match pending with
  | [] => (0, e, [])
  | ev :: rest => (1, ev, rest)

/-- What the event handling of one iteration of `eventLoop` leaves behind: the local
`e`, the event queue, and the handler calls made (handler and the event passed). -/
structure PollResult where
  e : SDL_Event
  pending : List SDL_Event
  invoked : List (eventHandler × SDL_Event)
deriving DecidableEq

/-- Lines 124-126 of `eventLoop`, the statement under `// handle events...` in the branch
with a visualiser attached: `if(SDL_PollEvent(&e) == 0) handleEvent(&e);`. -/
def pollAndHandle (eventHandlers : List eventHandler) (pending : List SDL_Event)
    (e : SDL_Event) : PollResult :=
  let polled := SDL_PollEvent pending e
  if polled.1 = 0 then
    { e := polled.2.1, pending := polled.2.2,
      invoked := (handleEvent eventHandlers polled.2.1).map (fun eH => (eH, polled.2.1)) }
  else
    { e := polled.2.1, pending := polled.2.2, invoked := [] }

/-- What the pacing code of one iteration does after the draw: it divides by zero
(`fault`), makes no call of `SDL_Delay` (`skip`), or calls `SDL_Delay(ms)`. -/
inductive Pace where
  | fault
  | skip
  | delay (ms : Nat)
deriving DecidableEq

/-- Lines 135-147 of `eventLoop`. `before` and `after` are the `Uint32` values of
`SDL_GetTicks()` around the draw. `timeTaken = after - before` is a `Uint32` difference;
in `((Uint32)1000/desiredFrameRate) - timeTaken` the `int` member `desiredFrameRate` is
converted to `Uint32`, quotient and difference are `Uint32`, and the result is converted
to the `int` `delayTime`; `SDL_Delay((Uint32)delayTime)` is called when `delayTime > 0`. -/
def framePace (desiredFrameRate : Int) (shouldVsync : Bool) (before after : Nat) : Pace :=
  if shouldVsync then Pace.skip
  else
    let timeTaken : Nat := (after % 2 ^ 32 + 2 ^ 32 - before % 2 ^ 32) % 2 ^ 32
    let divisor : Nat := (desiredFrameRate % 2 ^ 32).toNat
    if divisor = 0 then Pace.fault
    else
      let difference : Nat := (1000 / divisor + 2 ^ 32 - timeTaken) % 2 ^ 32
      let delayTime : Int := if difference < 2 ^ 31 then difference else difference - 2 ^ 32
      if delayTime > 0 then Pace.delay (delayTime % 2 ^ 32).toNat else Pace.skip

/-- One iteration of the loop of `eventLoop` in the branch with a visualiser attached
(lines 124-147): the event handling, then the draw between two readings of the tick
counter, then the pacing. -/
def eventLoopIteration (eventHandlers : List eventHandler) (desiredFrameRate : Int)
    (shouldVsync : Bool) (pending : List SDL_Event) (e : SDL_Event) (before after : Nat) :
    PollResult × Pace :=
  (pollAndHandle eventHandlers pending e, framePace desiredFrameRate shouldVsync before after)

/-! ## Sample inputs -/

/-- A sample codec: a packet at an odd address is undecodable; otherwise at most four
source bytes are consumed and two PCM bytes are produced. -/
def sampleCodec : Codec Unit := fun ctx packetData packetSize _ =>
  ({ framesRead := if packetData % 2 = 1 then -1 else min packetSize 4,
     dataSize := 2,
     pcm := [(packetData % 256).toNat, (packetSize % 256).toNat] }, ctx)

/-- A sample ring: slot `i` lies at address `slotBytes * i`; `add` hands out the slot at
the ring position and `pop` the slot after it, then the position moves on. -/
structure DelayLine where
  slots : Nat
  slotBytes : Nat
  position : Nat
deriving DecidableEq

/-- The operations of the sample ring. -/
def delayLine : CircularBufferOps DelayLine :=
  { create := fun slots slotBytes => ⟨slots, slotBytes, 0⟩,
    add := fun b => (b.slotBytes * (b.position % b.slots), b),
    pop := fun b =>
      (b.slotBytes * ((b.position + 1) % b.slots), { b with position := b.position + 1 }) }

/-- A decoder at its initial state with two packets queued, before the first callback. -/
def sampleAudio : AudioState (DecodeState Unit) DelayLine :=
  { statics := AudioStatics.init,
    decoder := DecodeState.init { packets := [⟨0, 1000, 6⟩, ⟨0, 2000, 3⟩] } (),
    cbuf := none,
    heap := fun _ => 0 }

/-- The state the first callback leaves when it is asked for 4 bytes in `sampleAudio`:
the circular buffer exists, with slots of 4 bytes. -/
def afterFirstCallback : AudioState (DecodeState Unit) DelayLine :=
  match audioThreadEntryPoint (decodeFrame sampleCodec 288000) delayLine 192000 4
      sampleAudio 4 with
  | some r => r.state
  | none => sampleAudio

/-- The cursor of `decodeFrame` part of the way through a ten-byte packet at address
1000, with the queue empty. -/
def partlyDecoded : DecodeState Unit :=
  { queue := { packets := [] }, codecCtx := (), packet := some ⟨0, 1000, 10⟩,
    packetSize := 10, packetData := 1000, calls := [] }

/-- The initial state of `decodeFrame` with an undecodable packet (odd address) at the head of
the queue and a decodable one behind it. -/
def corruptAhead : DecodeState Unit :=
  DecodeState.init { packets := [⟨0, 1001, 10⟩, ⟨0, 2000, 3⟩] } ()

/-! # Theorems -/

/-! ## `decodeFrame` -/

theorem getCount_append (a b : List Call) : getCount (a ++ b) = getCount a + getCount b := by
  simp [getCount, List.filter_append]

theorem decodeFrame_fresh {κ : Type} (codec : Codec κ) (bufferSize : Int) (v : DecodeState κ)
    (hv : v.packetSize = 0) (p : AVPacket) (rest : List AVPacket)
    (hq : v.queue.packets = p :: rest) :
    (decodeFrame codec bufferSize v).2.2.calls =
      v.calls ++ [Call.get (some p), Call.decode p.data p.size] ∧
    (decodeFrame codec bufferSize v).2.2.packet = some p ∧
    (decodeFrame codec bufferSize v).2.2.queue.packets = rest := by
  by_cases he : (codec v.codecCtx p.data p.size bufferSize).1.framesRead < 0
  · simp [decodeFrame, decodeFetch, decodeStep, packetQueue.get, hq, he, hv]
  · simp [decodeFrame, decodeFetch, decodeStep, packetQueue.get, hq, he, hv]

theorem decodeFrame_drained {κ : Type} (codec : Codec κ) (bufferSize : Int)
    (v : DecodeState κ) (hv : v.packetSize = 0) (hq : v.queue.packets = []) :
    (decodeFrame codec bufferSize v).1 = -1 ∧
    (decodeFrame codec bufferSize v).2.2.calls = v.calls ++ [Call.get none] := by
  simp [decodeFrame, decodeFetch, packetQueue.get, hq, hv]

/-- What `decodeFrame` does to the cursor on every successful decode: the returned value is
the PCM byte count, `packetSize` goes down by the bytes consumed, and `packetData` goes
down by them as well. -/
theorem decodeFrame_success_cursor {κ : Type} (codec : Codec κ) (bufferSize : Int)
    (w : DecodeState κ) (hfetch : (decodeFetch w).2 = true)
    (hok : ¬ (codec (decodeFetch w).1.codecCtx (decodeFetch w).1.packetData
      (decodeFetch w).1.packetSize bufferSize).1.framesRead < 0) :
    (decodeFrame codec bufferSize w).1 =
      (codec (decodeFetch w).1.codecCtx (decodeFetch w).1.packetData
        (decodeFetch w).1.packetSize bufferSize).1.dataSize ∧
    (decodeFrame codec bufferSize w).2.2.packetSize =
      (decodeFetch w).1.packetSize -
        (codec (decodeFetch w).1.codecCtx (decodeFetch w).1.packetData
          (decodeFetch w).1.packetSize bufferSize).1.framesRead ∧
    (decodeFrame codec bufferSize w).2.2.packetData =
      (decodeFetch w).1.packetData -
        (codec (decodeFetch w).1.codecCtx (decodeFetch w).1.packetData
          (decodeFetch w).1.packetSize bufferSize).1.framesRead := by
  have hstep : decodeFrame codec bufferSize w = decodeStep codec bufferSize (decodeFetch w).1 := by
    simp [decodeFrame, hfetch]
  rw [hstep]
  generalize decodeFetch w = f at hok
  simp [decodeStep, hok]

/-- C1. On the cursor `(packetData, packetSize) = (1000, 10)` with a codec that consumes 4
source bytes and produces 2 PCM bytes, `decodeFrame` returns 2 and leaves `packetSize = 6`
but `packetData = 996`, not `1004`: the next call offers the codec the 6 bytes at 996
rather than the undecoded tail at 1004. -/
theorem decodeFrame_moves_pointer_backward :
    (decodeFrame sampleCodec 288000 partlyDecoded).1 = 2 ∧
    (decodeFrame sampleCodec 288000 partlyDecoded).2.2.packetSize = 10 - 4 ∧
    (decodeFrame sampleCodec 288000 partlyDecoded).2.2.packetData = 1000 - 4 ∧
    (decodeFrame sampleCodec 288000 partlyDecoded).2.2.packetData ≠ 1000 + 4 ∧
    (decodeFrame sampleCodec 288000
      (decodeFrame sampleCodec 288000 partlyDecoded).2.2).2.2.calls =
      [Call.decode 1000 10, Call.decode 996 6] := by
  decide

/-- C2. When the codec reports an error on the packet at the cursor, `decodeFrame` returns
0 and sets `packetSize` to 0; the call after it, whatever the queue then holds, starts
with `queue->get()`: with a packet `p` delivered its only codec invocation is on
`(p.data, p.size)`, and with none delivered it returns -1 without a codec invocation. -/
theorem decodeFrame_error_discards_packet {κ : Type} (codec : Codec κ) (bufferSize : Int)
    (w : DecodeState κ) (hfetch : (decodeFetch w).2 = true)
    (herr : (codec (decodeFetch w).1.codecCtx (decodeFetch w).1.packetData
      (decodeFetch w).1.packetSize bufferSize).1.framesRead < 0) :
    (decodeFrame codec bufferSize w).1 = 0 ∧
    (decodeFrame codec bufferSize w).2.2.packetSize = 0 ∧
    (decodeFrame codec bufferSize w).2.2.calls =
      (decodeFetch w).1.calls ++
        [Call.decode (decodeFetch w).1.packetData (decodeFetch w).1.packetSize] ∧
    ∀ (queue : packetQueue),
      (∀ p rest, queue.packets = p :: rest →
        (decodeFrame codec bufferSize
          { (decodeFrame codec bufferSize w).2.2 with queue := queue }).2.2.calls =
          (decodeFrame codec bufferSize w).2.2.calls ++
            [Call.get (some p), Call.decode p.data p.size] ∧
        (decodeFrame codec bufferSize
          { (decodeFrame codec bufferSize w).2.2 with queue := queue }).2.2.packet = some p ∧
        (decodeFrame codec bufferSize
          { (decodeFrame codec bufferSize w).2.2 with queue := queue }).2.2.queue.packets =
          rest) ∧
      (queue.packets = [] →
        (decodeFrame codec bufferSize
          { (decodeFrame codec bufferSize w).2.2 with queue := queue }).1 = -1 ∧
        (decodeFrame codec bufferSize
          { (decodeFrame codec bufferSize w).2.2 with queue := queue }).2.2.calls =
          (decodeFrame codec bufferSize w).2.2.calls ++ [Call.get none]) := by
  have hstep : decodeFrame codec bufferSize w = decodeStep codec bufferSize (decodeFetch w).1 := by
    simp [decodeFrame, hfetch]
  rw [hstep]
  generalize decodeFetch w = f at herr
  refine ⟨by simp [decodeStep, herr], by simp [decodeStep, herr], by simp [decodeStep, herr], ?_⟩
  intro queue
  constructor
  · intro p rest hq
    exact decodeFrame_fresh codec bufferSize _ (by simp [decodeStep, herr]) p rest hq
  · intro hq
    exact decodeFrame_drained codec bufferSize _ (by simp [decodeStep, herr]) hq

theorem decodeFrame_error_discards_packet_witness :
    (decodeFrame sampleCodec 288000 corruptAhead).1 = 0 ∧
    (decodeFrame sampleCodec 288000 corruptAhead).2.2.packetSize = 0 ∧
    (decodeFrame sampleCodec 288000 corruptAhead).2.2.calls =
      [Call.get (some ⟨0, 1001, 10⟩), Call.decode 1001 10] ∧
    (decodeFrame sampleCodec 288000
      (decodeFrame sampleCodec 288000 corruptAhead).2.2).2.2.calls =
      [Call.get (some ⟨0, 1001, 10⟩), Call.decode 1001 10,
       Call.get (some ⟨0, 2000, 3⟩), Call.decode 2000 3] :=
  ⟨(decodeFrame_error_discards_packet sampleCodec 288000 corruptAhead
      (by decide) (by decide)).1,
   (decodeFrame_error_discards_packet sampleCodec 288000 corruptAhead
      (by decide) (by decide)).2.1,
   by decide, by decide⟩

/-- C7. `decodeFrame` calls `queue->get()` exactly when `packetSize` is 0 on entry; with
`packetSize` not 0 the packet and the queue are as they were; with `packetSize` 0 and no
packet delivered it returns -1, its only call is that `get`, and `packetSize`,
`packetData` and the codec context are as they were. -/
theorem decodeFrame_fetches_iff_exhausted {κ : Type} (codec : Codec κ) (bufferSize : Int)
    (w : DecodeState κ) :
    (getCount (decodeFrame codec bufferSize w).2.2.calls = getCount w.calls + 1 ↔
      w.packetSize = 0) ∧
    (w.packetSize ≠ 0 →
      getCount (decodeFrame codec bufferSize w).2.2.calls = getCount w.calls ∧
      (decodeFrame codec bufferSize w).2.2.packet = w.packet ∧
      (decodeFrame codec bufferSize w).2.2.queue = w.queue) ∧
    (w.packetSize = 0 → w.queue.packets = [] →
      (decodeFrame codec bufferSize w).1 = -1 ∧
      (decodeFrame codec bufferSize w).2.2.calls = w.calls ++ [Call.get none] ∧
      (decodeFrame codec bufferSize w).2.2.packetSize = w.packetSize ∧
      (decodeFrame codec bufferSize w).2.2.packetData = w.packetData ∧
      (decodeFrame codec bufferSize w).2.2.codecCtx = w.codecCtx) := by
  by_cases h : w.packetSize = 0
  · cases hq : w.queue.packets with
    | nil =>
      simp [decodeFrame, decodeFetch, packetQueue.get, h, hq, getCount_append, getCount]
    | cons p rest =>
      by_cases he : (codec w.codecCtx p.data p.size bufferSize).1.framesRead < 0
      · simp [decodeFrame, decodeFetch, decodeStep, packetQueue.get, h, hq, he,
          getCount_append, getCount]
      · simp [decodeFrame, decodeFetch, decodeStep, packetQueue.get, h, hq, he,
          getCount_append, getCount]
  · by_cases he : (codec w.codecCtx w.packetData w.packetSize bufferSize).1.framesRead < 0
    · simp [decodeFrame, decodeFetch, decodeStep, h, he, getCount_append, getCount]
    · simp [decodeFrame, decodeFetch, decodeStep, h, he, getCount_append, getCount]

/-! ## Bytes in memory: reading and writing -/

theorem readBytes_length (m : Nat → Nat) (start n : Nat) : (readBytes m start n).length = n := by
  simp [readBytes]

theorem readBytes_zero (m : Nat → Nat) (start : Nat) : readBytes m start 0 = [] := by
  simp [readBytes]

theorem fillLoop_done {δ : Type} (dec : Decoder δ) (maxFrame fuel : Nat) (s : AudioStatics)
    (d : δ) (stream : List Nat) :
    fillLoop dec maxFrame fuel s d 0 stream = some (s, d, stream) := by
  cases fuel <;> simp [fillLoop]

theorem fillLoop_step {δ : Type} (dec : Decoder δ) (maxFrame fuel : Nat) (s : AudioStatics)
    (d : δ) (samplesLeft : Nat) (stream : List Nat) (h : samplesLeft ≠ 0) :
    fillLoop dec maxFrame (fuel + 1) s d samplesLeft stream =
      fillLoop dec maxFrame fuel
        { (refill dec maxFrame s d).1 with
          bufCurrentIndex := (refill dec maxFrame s d).1.bufCurrentIndex +
            min ((refill dec maxFrame s d).1.bufLength -
              (refill dec maxFrame s d).1.bufCurrentIndex) samplesLeft }
        (refill dec maxFrame s d).2
        (samplesLeft - min ((refill dec maxFrame s d).1.bufLength -
              (refill dec maxFrame s d).1.bufCurrentIndex) samplesLeft)
        (stream ++ readBytes (refill dec maxFrame s d).1.buf
          (refill dec maxFrame s d).1.bufCurrentIndex
          (min ((refill dec maxFrame s d).1.bufLength -
              (refill dec maxFrame s d).1.bufCurrentIndex) samplesLeft)) := by
  simp [fillLoop, h]

theorem fillLoop_length {δ : Type} (dec : Decoder δ) (maxFrame : Nat) :
    ∀ (fuel : Nat) (s : AudioStatics) (d : δ) (n : Nat) (stream : List Nat)
      (r : AudioStatics × δ × List Nat),
      fillLoop dec maxFrame fuel s d n stream = some r →
      r.2.2.length = stream.length + n := by
  intro fuel
  induction fuel with
  | zero =>
    intro s d n stream r h
    by_cases h0 : n = 0
    · subst h0
      rw [fillLoop_done] at h
      cases h
      simp
    · simp [fillLoop, h0] at h
  | succ k ih =>
    intro s d n stream r h
    by_cases h0 : n = 0
    · subst h0
      rw [fillLoop_done] at h
      cases h
      simp
    · rw [fillLoop_step _ _ _ _ _ _ _ h0] at h
      have := ih _ _ _ _ _ h
      rw [this, List.length_append, readBytes_length]
      omega

/-! ## The calls after the fill loop -/

theorem readBytes_written (m : Nat → Nat) (a : Nat) (bs : List Nat) :
    readBytes (writeBytes m a bs) a bs.length = bs := by
  apply List.ext_getElem
  · simp [readBytes_length]
  · intro i h1 h2
    simp [readBytes, writeBytes, h2]

theorem readBytes_of_list (l : List Nat) :
    readBytes (fun i => l.getD i 0) 0 l.length = l := by
  apply List.ext_getElem
  · simp [readBytes_length]
  · intro i h1 h2
    simp [readBytes, h2]

theorem audioThreadEntryPoint_stalled {δ β : Type} (dec : Decoder δ)
    (ops : CircularBufferOps β) (maxFrame fuel : Nat) (a : AudioState δ β) (len : Nat)
    (h : fillLoop dec maxFrame fuel a.statics a.decoder len [] = none) :
    audioThreadEntryPoint dec ops maxFrame fuel a len = none := by
  simp [audioThreadEntryPoint, h]

theorem audioThreadEntryPoint_filled {δ β : Type} (dec : Decoder δ)
    (ops : CircularBufferOps β) (maxFrame fuel : Nat) (a : AudioState δ β) (len : Nat)
    (s1 : AudioStatics) (d1 : δ) (stream : List Nat)
    (h : fillLoop dec maxFrame fuel a.statics a.decoder len [] = some (s1, d1, stream)) :
    ∃ r slotIn slotOut,
      audioThreadEntryPoint dec ops maxFrame fuel a len = some r ∧
      r.state.statics = s1 ∧ r.state.decoder = d1 ∧
      stream.length = len ∧
      r.calls = AudioCall.processAudioPCM stream len ::
        ((if a.cbuf.isSome then [] else [AudioCall.create CIRCBUFSIZE len]) ++
          [AudioCall.add slotIn, AudioCall.copyIn slotIn stream,
           AudioCall.pop slotOut, AudioCall.copyOut slotOut r.stream]) ∧
      readBytes r.state.heap slotIn len = stream ∧
      r.stream = readBytes r.state.heap slotOut len ∧
      r.stream.length = len ∧
      (∀ cb, a.cbuf = some cb →
        ∃ cb1, r.state.cbuf = some cb1 ∧ cb1.slots = cb.slots ∧ cb1.slotBytes = cb.slotBytes) ∧
      (a.cbuf = none →
        ∃ cb1, r.state.cbuf = some cb1 ∧ cb1.slots = CIRCBUFSIZE ∧ cb1.slotBytes = len) := by
  have hlen : stream.length = len := by
    have := fillLoop_length dec maxFrame fuel _ _ _ _ _ h
    simpa using this
  subst hlen
  cases hc : a.cbuf with
  | none =>
    refine ⟨_, (ops.add (ops.create CIRCBUFSIZE stream.length)).1,
      (ops.pop (ops.add (ops.create CIRCBUFSIZE stream.length)).2).1,
      by simp only [audioThreadEntryPoint, h, hc]; rfl, rfl, rfl, rfl, ?_, ?_, ?_, ?_, ?_, ?_⟩
    · simp only [readBytes_of_list, hc]
      rfl
    · simp only [readBytes_of_list, readBytes_written]
    · rfl
    · simp [readBytes_length]
    · intro cb hcb
      cases hcb
    · intro _
      exact ⟨_, rfl, rfl, rfl⟩
  | some cb0 =>
    refine ⟨_, (ops.add cb0.ring).1, (ops.pop (ops.add cb0.ring).2).1,
      by simp only [audioThreadEntryPoint, h, hc]; rfl, rfl, rfl, rfl, ?_, ?_, ?_, ?_, ?_, ?_⟩
    · simp only [readBytes_of_list, hc]
      rfl
    · simp only [readBytes_of_list, readBytes_written]
    · rfl
    · simp [readBytes_length]
    · intro cb hcb
      cases hcb
      exact ⟨_, rfl, rfl, rfl⟩
    · intro hcb
      cases hcb

/-! ## Successive callbacks -/

/-- What an invocation whose fill loop ended with the bytes `stream` returns, in full: the
slot written is the one `add()` returns on the ring of `ringBefore`, the slot read is the
one the following `pop()` returns, and the ring is left as that `pop()` leaves it. -/
theorem audioThreadEntryPoint_after_fill {δ β : Type} (dec : Decoder δ)
    (ops : CircularBufferOps β) (maxFrame fuel : Nat) (a : AudioState δ β) (len : Nat)
    (s1 : AudioStatics) (d1 : δ) (stream : List Nat)
    (h : fillLoop dec maxFrame fuel a.statics a.decoder len [] = some (s1, d1, stream)) :
    stream.length = len ∧
    audioThreadEntryPoint dec ops maxFrame fuel a len = some
      { state :=
          { statics := s1, decoder := d1,
            cbuf := some
              { slots := (ringBefore ops a.cbuf len).slots,
                slotBytes := (ringBefore ops a.cbuf len).slotBytes,
                ring := (ops.pop (ops.add (ringBefore ops a.cbuf len).ring).2).2 },
            heap := writeBytes a.heap (ops.add (ringBefore ops a.cbuf len).ring).1 stream },
        stream :=
          readBytes (writeBytes a.heap (ops.add (ringBefore ops a.cbuf len).ring).1 stream)
            (ops.pop (ops.add (ringBefore ops a.cbuf len).ring).2).1 len,
        calls := AudioCall.processAudioPCM stream len ::
          ((if a.cbuf.isSome then [] else [AudioCall.create CIRCBUFSIZE len]) ++
            [AudioCall.add (ops.add (ringBefore ops a.cbuf len).ring).1,
             AudioCall.copyIn (ops.add (ringBefore ops a.cbuf len).ring).1 stream,
             AudioCall.pop (ops.pop (ops.add (ringBefore ops a.cbuf len).ring).2).1,
             AudioCall.copyOut (ops.pop (ops.add (ringBefore ops a.cbuf len).ring).2).1
               (readBytes
                 (writeBytes a.heap (ops.add (ringBefore ops a.cbuf len).ring).1 stream)
                 (ops.pop (ops.add (ringBefore ops a.cbuf len).ring).2).1 len)]) } := by
  have hlen : stream.length = len := by
    have := fillLoop_length dec maxFrame fuel _ _ _ _ _ h
    simpa using this
  refine ⟨hlen, ?_⟩
  subst hlen
  cases hc : a.cbuf with
  | none =>
    simp only [audioThreadEntryPoint, h, hc, ringBefore, readBytes_of_list]
    rfl
  | some cb0 =>
    simp only [audioThreadEntryPoint, h, hc, ringBefore, readBytes_of_list]
    rfl

theorem dspInputs_of_calls (stream out : List Nat) (len slotIn slotOut : Nat)
    (made : List AudioCall)
    (hmade : made = [] ∨ made = [AudioCall.create CIRCBUFSIZE len]) :
    dspInputs (AudioCall.processAudioPCM stream len ::
      (made ++ [AudioCall.add slotIn, AudioCall.copyIn slotIn stream,
        AudioCall.pop slotOut, AudioCall.copyOut slotOut out])) = [stream] := by
  rcases hmade with h | h <;> subst h <;> simp [dspInputs]

theorem made_cases {β : Type} (c : Option (CircularBuffer β)) (len : Nat) :
    (if c.isSome then [] else [AudioCall.create CIRCBUFSIZE len]) = [] ∨
    (if c.isSome then [] else [AudioCall.create CIRCBUFSIZE len]) =
      [AudioCall.create CIRCBUFSIZE len] := by
  cases c <;> simp

theorem fillLoop_starved {κ : Type} (codec : Codec κ) (bufferSize : Int) (maxFrame : Nat) :
    ∀ (fuel : Nat) (s : AudioStatics) (w : DecodeState κ) (n : Nat) (stream : List Nat),
      s.bufLength = 0 → w.packetSize = 0 → w.queue.packets = [] →
      fillLoop (decodeFrame codec bufferSize) maxFrame fuel s w (n + 1) stream = none := by
  intro fuel
  induction fuel with
  | zero =>
    intro s w n stream _ _ _
    simp [fillLoop]
  | succ k ih =>
    intro s w n stream hs hw hq
    have hdec : decodeFrame codec bufferSize w =
        (-1, [], { w with packet := none, calls := w.calls ++ [Call.get none] }) := by
      simp [decodeFrame, decodeFetch, packetQueue.get, hw, hq]
    have hfill : refill (decodeFrame codec bufferSize) maxFrame s w =
        (⟨zeroBytes (writeBytes s.buf 0 []) maxFrame, s.bufLength, 0⟩,
          { w with packet := none, calls := w.calls ++ [Call.get none] }) := by
      have hge : s.bufCurrentIndex ≥ s.bufLength := by omega
      simp [refill, hge, hdec]
    rw [fillLoop_step _ _ _ _ _ _ _ (Nat.succ_ne_zero n), hfill]
    simp only [hs, Nat.sub_zero, Nat.zero_min, Nat.add_zero, List.append_nil, readBytes_zero]
    exact ih _ _ n stream rfl hw hq

/-- C3. With the `static` locals at their initial values (`bufLength = 0`) and a queue that
delivers no packet, `decodeFrame` returns -1 on every call and the fill loop of
`audioThreadEntryPoint` never ends, for any request of `len + 1 > 0` bytes: after every
number of iterations the callback is still running. -/
theorem silence_branch_never_fills {κ β : Type} (codec : Codec κ)
    (ops : CircularBufferOps β) (maxFrame fuel len : Nat) (codecCtx : κ) (heap : Nat → Nat) :
    audioThreadEntryPoint (decodeFrame codec ((maxFrame * 3 / 2 : Nat) : Int)) ops maxFrame fuel
      { statics := AudioStatics.init,
        decoder := DecodeState.init { packets := [] } codecCtx,
        cbuf := none, heap := heap } (len + 1) = none := by
  apply audioThreadEntryPoint_stalled
  exact fillLoop_starved codec _ maxFrame fuel _ _ len [] rfl rfl rfl

/-- C5. From the `static` locals at their initial values with a queue that delivers no
packet, an invocation of `audioThreadEntryPoint` asked for `len + 1 > 0` bytes never makes
a call of `processAudioPCM`: after every number of loop iterations it has not left the
fill loop, so there is no record of calls after the loop. In the invocations whose fill
loop does end, `processAudioPCM` is called once, with the bytes the loop assembled. -/
theorem starved_callback_never_analyses {κ β : Type} (codec : Codec κ)
    (ops : CircularBufferOps β) (maxFrame : Nat) :
    (∀ (fuel len : Nat) (codecCtx : κ) (heap : Nat → Nat),
      (audioThreadEntryPoint (decodeFrame codec ((maxFrame * 3 / 2 : Nat) : Int)) ops
        maxFrame fuel
        { statics := AudioStatics.init,
          decoder := DecodeState.init { packets := [] } codecCtx,
          cbuf := none, heap := heap } (len + 1)).map (fun r => dspInputs r.calls) = none) ∧
    (∀ (fuel len : Nat) (a : AudioState (DecodeState κ) β) (s1 : AudioStatics)
        (d1 : DecodeState κ) (stream : List Nat),
      fillLoop (decodeFrame codec ((maxFrame * 3 / 2 : Nat) : Int)) maxFrame fuel
        a.statics a.decoder len [] = some (s1, d1, stream) →
      (audioThreadEntryPoint (decodeFrame codec ((maxFrame * 3 / 2 : Nat) : Int)) ops
        maxFrame fuel a len).map (fun r => dspInputs r.calls) = some [stream]) := by
  constructor
  · intro fuel len codecCtx heap
    rw [audioThreadEntryPoint_stalled _ ops maxFrame fuel _ (len + 1)
      (fillLoop_starved codec _ maxFrame fuel _ _ len [] rfl rfl rfl)]
    rfl
  · intro fuel len a s1 d1 stream h
    obtain ⟨r, slotIn, slotOut, hr, _, _, _, hcalls, _⟩ :=
      audioThreadEntryPoint_filled _ ops maxFrame fuel a len s1 d1 stream h
    rw [hr, Option.map_some', hcalls,
      dspInputs_of_calls _ _ _ _ _ _ (made_cases a.cbuf len)]

/-- C6 (as amended). The callback that finds no circular buffer constructs it with slots
of `len` bytes. A later callback, which finds the buffer `cb`, compares no `len` with the
slot size: when `len` is at most the slot size and the fill loop ends, it returns, having
copied the `len` assembled bytes to the slot that `add()` returned and `len` bytes from the
slot that the following `pop()` returned to `stream`, and it leaves the slot size as it
was; so the number of bytes copied is the slot size exactly when `len` is. -/
theorem callback_copies_len_bytes {δ β : Type} (dec : Decoder δ)
    (ops : CircularBufferOps β) (maxFrame fuel : Nat) (a : AudioState δ β) (len : Nat)
    (s1 : AudioStatics) (d1 : δ) (stream : List Nat)
    (hfill : fillLoop dec maxFrame fuel a.statics a.decoder len [] = some (s1, d1, stream)) :
    ∃ r, audioThreadEntryPoint dec ops maxFrame fuel a len = some r ∧
      stream.length = len ∧ r.stream.length = len ∧
      (a.cbuf = none →
        r.state.cbuf = some
          { slots := CIRCBUFSIZE, slotBytes := len,
            ring := (ops.pop (ops.add (ops.create CIRCBUFSIZE len)).2).2 }) ∧
      (∀ cb, a.cbuf = some cb → len ≤ cb.slotBytes →
        r.calls =
          [AudioCall.processAudioPCM stream len,
           AudioCall.add (ops.add cb.ring).1,
           AudioCall.copyIn (ops.add cb.ring).1 stream,
           AudioCall.pop (ops.pop (ops.add cb.ring).2).1,
           AudioCall.copyOut (ops.pop (ops.add cb.ring).2).1
             (readBytes (writeBytes a.heap (ops.add cb.ring).1 stream)
               (ops.pop (ops.add cb.ring).2).1 len)] ∧
        r.state.heap = writeBytes a.heap (ops.add cb.ring).1 stream ∧
        r.stream = readBytes r.state.heap (ops.pop (ops.add cb.ring).2).1 len ∧
        r.state.cbuf = some
          { slots := cb.slots, slotBytes := cb.slotBytes,
            ring := (ops.pop (ops.add cb.ring).2).2 } ∧
        (stream.length = cb.slotBytes ↔ len = cb.slotBytes)) := by
  obtain ⟨hlen, hr⟩ :=
    audioThreadEntryPoint_after_fill dec ops maxFrame fuel a len s1 d1 stream hfill
  refine ⟨_, hr, hlen, by simp [readBytes_length], ?_, ?_⟩
  · intro hcb
    simp [hcb, ringBefore]
  · intro cb hcb _
    simp [hcb, ringBefore, hlen]

theorem callback_copies_len_bytes_witness :
    (∃ r, audioThreadEntryPoint (decodeFrame sampleCodec 288000) delayLine 192000 4
        sampleAudio 4 = some r ∧
      r.state.cbuf = some { slots := 5, slotBytes := 4, ring := ⟨5, 4, 1⟩ }) ∧
    (∃ r, audioThreadEntryPoint (decodeFrame sampleCodec 288000) delayLine 192000 4
        afterFirstCallback 2 = some r ∧
      r.calls =
        [AudioCall.processAudioPCM [208, 3] 2, AudioCall.add 4, AudioCall.copyIn 4 [208, 3],
         AudioCall.pop 8, AudioCall.copyOut 8 [0, 0]] ∧
      r.state.cbuf = some { slots := 5, slotBytes := 4, ring := ⟨5, 4, 2⟩ } ∧
      ¬ (([208, 3] : List Nat).length = 4)) := by
  constructor
  · obtain ⟨r, hr, _, _, hnone, _⟩ :=
      callback_copies_len_bytes (decodeFrame sampleCodec 288000) delayLine 192000 4
        sampleAudio 4 _ _ _ rfl
    exact ⟨r, hr, hnone rfl⟩
  · obtain ⟨r, hr, _, _, _, hsome⟩ :=
      callback_copies_len_bytes (decodeFrame sampleCodec 288000) delayLine 192000 4
        afterFirstCallback 2 _ _ [208, 3] rfl
    obtain ⟨hcalls, _, _, hcbuf, _⟩ :=
      hsome { slots := 5, slotBytes := 4, ring := ⟨5, 4, 1⟩ } rfl (by decide)
    exact ⟨r, hr, hcalls, hcbuf, by decide⟩

/-- C6, the claim as stated fails: after a first callback with `len = 4` fixed the slot
size at 4, a second callback with `len = 2` returns normally and copies 2 bytes to the
slot from `add()` and 2 bytes from the slot from `pop()`. -/
theorem callback_accepts_other_len :
    (playback (decodeFrame sampleCodec 288000) delayLine 192000 4 sampleAudio [4, 2]).map
      (fun x => x.2.map
        (fun r => (copySizes r.calls, r.state.cbuf.map (fun cb => cb.slotBytes)))) =
      some [([4, 4], some 4), ([2, 2], some 4)] := by
  decide

/-! ## The worker and the event loop -/

/-- Up to the point where its test fails, the loop of `ffmpegWorkerEntry` has appended to
the queue exactly the packets of the audio stream among the successful reads, in read
order and each once, has released exactly the others, and has asked for nothing after
the failed read (`remaining` is empty or starts with a failed read). -/
theorem readLoop_forwards_audio_packets (audioStream : Int) (reads : List (Int × AVPacket))
    (remaining : List (Int × AVPacket)) (queue : packetQueue) (freed : List AVPacket)
    (hok : ∀ r ∈ reads, 0 ≤ r.1) (hfail : ∀ r ∈ remaining.head?, r.1 < 0) :
    readLoop audioStream (reads ++ remaining) queue freed =
      { queue := { packets := queue.packets ++
          (reads.map (fun r => r.2)).filter (fun p => p.stream_index = audioStream) },
        freed := freed ++
          (reads.map (fun r => r.2)).filter (fun p => ¬ p.stream_index = audioStream),
        unread := remaining.tail } := by
  induction reads generalizing queue freed with
  | nil =>
    cases remaining with
    | nil => simp [readLoop]
    | cons r rest =>
      obtain ⟨code, packet⟩ := r
      have hneg : ¬ (code ≥ 0) := by
        have := hfail (code, packet) (by simp)
        simp at this
        omega
      simp [readLoop, hneg]
  | cons r reads ih =>
    obtain ⟨code, packet⟩ := r
    have hcode : code ≥ 0 := hok (code, packet) (by simp)
    have hok2 : ∀ r ∈ reads, 0 ≤ r.1 := fun r hr => hok r (by simp [hr])
    by_cases hidx : packet.stream_index = audioStream
    · simp [readLoop, hcode, hidx, ih _ _ hok2, packetQueue.put]
    · simp [readLoop, hcode, hidx, ih _ _ hok2]

/-- C8. No call of `ffmpegWorkerEntry` ends in a `return`: whatever the reader delivers,
when a read fails control flows off the end of the value-returning function. With one
audio packet read and then a failed read (which leaves that packet in `packet`), the
loop has put the packet once and the call ends off the end of the function, where the
language no longer says that the worker stops, nor that the stale packet is not put
again. -/
theorem worker_flows_off_the_end :
    (∀ (audioStream : Int) (reads : List (Int × AVPacket)) (queue : packetQueue)
        (freed : List AVPacket) (r : WorkerResult),
      ffmpegWorkerEntry audioStream reads queue freed ≠ WorkerEnd.returned r) ∧
    ffmpegWorkerEntry 1 [(0, ⟨1, 1000, 6⟩), (-1, ⟨1, 1000, 6⟩), (0, ⟨1, 2000, 3⟩)]
        { packets := [] } [] =
      WorkerEnd.offEnd
        { queue := { packets := [⟨1, 1000, 6⟩] }, freed := [],
          unread := [(0, ⟨1, 2000, 3⟩)] } := by
  constructor
  · intro audioStream reads queue freed r h
    simp [ffmpegWorkerEntry] at h
  · decide

/-- C9. With vsync disabled, a target of 60 frames per second (a budget of 16 ms) and a
tick difference of 2147483665 ms across the draw (longer than the budget),
`eventLoop` calls `SDL_Delay(2147483647)`: the `Uint32` difference wraps to a positive
`int`. -/
theorem long_draw_still_sleeps :
    framePace 60 false 0 2147483665 = Pace.delay 2147483647 ∧ 1000 / 60 < 2147483665 := by
  decide

theorem framePace_example : framePace 60 false 100 105 = Pace.delay 11 := by
  decide

theorem framePace_vsync (desiredFrameRate : Int) (before after : Nat) :
    framePace desiredFrameRate true before after = Pace.skip := by
  simp [framePace]

/-- Within the range in which the `Uint32` difference does not wrap into a positive `int`,
the pacing is `max(0, 1000/desiredFrameRate - timeTaken)`. -/
theorem framePace_in_range (rate timeTaken before : Nat) (hrate : 0 < rate)
    (hrate2 : rate < 2 ^ 32) (hbefore : before < 2 ^ 32)
    (htime : timeTaken ≤ 2 ^ 31) :
    framePace (rate : Int) false before ((before + timeTaken) % 2 ^ 32) =
      if 1000 / rate - timeTaken = 0 then Pace.skip
      else Pace.delay (1000 / rate - timeTaken) := by
  have hdiv : ((rate : Int) % 4294967296).toNat = rate := by omega
  have hb : 1000 / rate ≤ 1000 := Nat.div_le_self _ _
  have htt : ((before + timeTaken) % 4294967296 % 4294967296 + 4294967296 -
      before % 4294967296) % 4294967296 = timeTaken := by omega
  have hr0 : rate ≠ 0 := by omega
  generalize hq : 1000 / rate = budget at hb
  unfold framePace
  norm_num only [hdiv, htt, hr0, hq, Bool.false_eq_true, if_false]
  split_ifs <;> first | rfl | omega | (congr 1; omega)
/-- The handlers called by `handleEvent` are the registered handlers whose `eventType()`
is the type of the event, and no others. -/
theorem handleEvent_mem (eventHandlers : List eventHandler) (e : SDL_Event)
    (eH : eventHandler) :
    eH ∈ handleEvent eventHandlers e ↔ eH ∈ eventHandlers ∧ eH.eventType = e.type := by
  simp [handleEvent]

/-- An iteration of the loop calls a handler only when the poll found no event pending. -/
theorem pollAndHandle_invokes_only_when_idle (eventHandlers : List eventHandler)
    (pending : List SDL_Event) (e : SDL_Event) (ev : SDL_Event) (rest : List SDL_Event)
    (h : pending = ev :: rest) :
    (pollAndHandle eventHandlers pending e).invoked = [] ∧
    (pollAndHandle eventHandlers pending e).e = ev := by
  subst h
  simp [pollAndHandle, SDL_PollEvent]

/-- C10. With a quit handler (event type 12) and a key handler (event type 2) registered:
when the poll retrieves a pending event of type 12, an iteration of `eventLoop` calls no
handler, and the event is gone from the queue; when no event is pending and the local `e`
still holds an earlier event of type 2, the iteration calls the key handler with it. -/
theorem poll_result_is_inverted :
    pollAndHandle [⟨0, 12⟩, ⟨1, 2⟩] [⟨12, 0⟩] ⟨2, 27⟩ =
      { e := ⟨12, 0⟩, pending := [], invoked := [] } ∧
    pollAndHandle [⟨0, 12⟩, ⟨1, 2⟩] [] ⟨2, 27⟩ =
      { e := ⟨2, 27⟩, pending := [], invoked := [(⟨1, 2⟩, ⟨2, 27⟩)] } := by
  decide

end Mattuliser
